import Mathlib

/-!
Shallow embedding of the content-edit viewer widget (`src/components/viewer.tsx`,
with `src/unnamed/part_000` an earlier variant of the same component).

Modelling conventions:
* JavaScript strings manipulated character-wise are modelled as `List Char`
  (identifiers, which are only compared and prefixed, stay `String`);
* JavaScript numbers used for geometry are modelled as `Int`, and the signed
  arithmetic inside the random-text generator is carried out over `Int`
  exactly as the source performs it;
* `Math.random()` is modelled by a supplied choice function `Nat → Nat`
  giving the word index picked at each loop iteration (taken modulo the
  word-list length, so every possible random draw is covered);
* the asynchronous SDK calls are modelled by outcome parameters that inject
  each failure point of the source, and each handler returns the post-state
  together with the ordered list of externally observable events (session
  open/discard/commit, per-page enumeration, overlay creation/removal, batch
  update submission, warning and error logs).
-/

/-- The fixed word list of `generateRandomText` (`viewer.tsx` lines 215-244). -/
def replacementWords : List (List Char) :=
  ["AI", "tech", "smart", "fast", "new", "good", "best", "top", "big", "real",
   "data", "code", "web", "app", "tool", "work", "easy", "cool", "hot", "fun",
   "modern", "clean", "simple", "quick", "strong", "bright", "fresh",
   "bold"].map String.toList

/-- The fixed lorem-ipsum padding passage (`viewer.tsx` line 265). -/
def loremChars : List Char :=
  ("Lorem ipsum dolor sit amet consectetur adipiscing elit sed do eiusmod tempor incididunt ut labore et dolore magna aliqua").toList

/-- JavaScript `String.prototype.trim`: drop whitespace from both ends. -/
def jsTrim (s : List Char) : List Char :=
  ((s.dropWhile Char.isWhitespace).reverse.dropWhile Char.isWhitespace).reverse

/-- The greedy word-concatenation loop of `generateRandomText`
(`viewer.tsx` lines 247-261).  `fuel` is a structural-recursion bound, proved
below to be irrelevant once it is at least `100 - attempts`: the source loop
condition `attempts < maxAttempts` (with `maxAttempts = 100`) is checked
explicitly, exactly as written. -/
def genLoop (originalLength : Nat) (choices : Nat → Nat) :
    Nat → Nat → List Char → List Char
  | 0, _, result => result
  | fuel + 1, attempts, result =>
    if (result.length : Int) < (originalLength : Int) - 10 ∧ attempts < 100 then
      let randomWord := replacementWords.getD (choices attempts % replacementWords.length) []
      let testResult := result ++ (if result = [] then [] else [' ']) ++ randomWord
      if testResult.length ≤ originalLength then
        genLoop originalLength choices fuel (attempts + 1) testResult
      else
        result
    else
      result

/-- `generateRandomText` (`viewer.tsx` lines 213-279): greedy random word
concatenation bounded by the original length, lorem-ipsum padding when the
result stays more than 20 characters short, hard truncation with trim, and
the fixed fallback `'AI text'` when the result is empty. -/
def generateRandomText (choices : Nat → Nat) (originalText : List Char) : List Char :=
  let originalLength := originalText.length
  let afterLoop := genLoop originalLength choices 100 0 []
  let afterPad :=
    if (afterLoop.length : Int) < (originalLength : Int) - 20 then
      let remainingLength : Int := (originalLength : Int) - (afterLoop.length : Int) - 1
      if 0 < remainingLength then
        afterLoop ++ (if afterLoop = [] then [] else [' ']) ++
          loremChars.take remainingLength.toNat
      else
        afterLoop
    else
      afterLoop
  let afterTrunc :=
    if originalLength < afterPad.length then jsTrim (afterPad.take originalLength)
    else afterPad
  if afterTrunc = [] then ("AI text").toList else afterTrunc

/-- Position/size rectangle of a text region (`viewer.tsx` lines 17-22). -/
structure BoundingBox where
  top : Int
  left : Int
  width : Int
  height : Int
deriving DecidableEq

/-- Anchor point of a text region (`viewer.tsx` lines 24-27). -/
structure Anchor where
  x : Int
  y : Int
deriving DecidableEq

/-- A text region descriptor as reported by the SDK (`viewer.tsx` lines 30-36). -/
structure TextBlock where
  id : String
  text : List Char
  boundingBox : BoundingBox
  anchor : Anchor
  maxWidth : Int
deriving DecidableEq

/-- A text block augmented with the page it belongs to, the shape stored in
`textBlocksRef` and `selected` (`viewer.tsx` lines 57, 60, 110). -/
structure TextBlockWithPage extends TextBlock where
  pageIndex : Nat
deriving DecidableEq

/-- Batch-update payload entry (`viewer.tsx` lines 38-43); the handler fills
only `id` and `text` (lines 289-292). -/
structure UpdatedTextBlock where
  id : String
  text : Option (List Char)
  anchor : Option Anchor
  maxWidth : Option Int
deriving DecidableEq

/-- The locally owned view state of the component: `overlaysRef`,
`textBlocksRef`, `currentPageIndex`, `isEditing`, `selected`, `isProcessing`
(`viewer.tsx` lines 56-61). -/
structure ViewerState where
  overlays : List String
  textBlocks : List TextBlockWithPage
  currentPageIndex : Nat
  isEditing : Bool
  selected : List TextBlockWithPage
  isProcessing : Bool
deriving DecidableEq

/-- The initial view state set up by the `useState`/`useRef` initialisers. -/
def initViewerState : ViewerState :=
  { overlays := [], textBlocks := [], currentPageIndex := 0,
    isEditing := false, selected := [], isProcessing := false }

/-- Externally observable effects of a handler run, in execution order.
Successful SDK calls and overlay mutations are recorded as events;
`logWarn` is `console.warn` and `logError` is `console.error`
(informational `console.log` lines carry no effect and are not recorded). -/
inductive Event where
  | sessionOpen
  | getBlocks (pageIndex : Nat)
  | overlayCreate (id : String) (pageIndex : Nat) (x y width height : Int)
  | overlayRemove (id : String)
  | updateBlocks (updates : List UpdatedTextBlock)
  | commit
  | discard
  | logWarn
  | logError
deriving DecidableEq

/-- Recognises overlay-creation events. -/
def isOverlayCreate : Event → Bool
  | .overlayCreate _ _ _ _ _ _ => true
  | _ => false

/-- The page-by-page enumeration loop (`viewer.tsx` lines 104-112): for each
page in order, tag that page's blocks with the page index and concatenate. -/
def collectTextBlocks : List (List TextBlock) → Nat → List TextBlockWithPage
  | [], _ => []
  | page :: rest, pageIndex =>
      page.map (fun tb => { toTextBlock := tb, pageIndex := pageIndex }) ++
        collectTextBlocks rest (pageIndex + 1)

/-- Overlay identifier `overlay-${textBlock.id}` (`viewer.tsx` line 144). -/
def overlayIdOf (tb : TextBlockWithPage) : String := "overlay-" ++ tb.id

/-- The overlay-creation effect for one block: a `CustomOverlayItem` on the
block's page, positioned at the bounding box's `(left, top)` corner with the
div sized to the box's width and height (`viewer.tsx` lines 118-156). -/
def overlayCreateEvent (tb : TextBlockWithPage) : Event :=
  .overlayCreate (overlayIdOf tb) tb.pageIndex
    tb.boundingBox.left tb.boundingBox.top tb.boundingBox.width tb.boundingBox.height

/-- Injected failure points of the editing-mode toggle:
`openFail` makes `beginContentEditingSession` throw, `enumFail k` makes
`getTextBlocks` throw at page `k` (meaningful when `k` is a real page),
`ok` lets every SDK call succeed. -/
inductive ToggleOutcome where
  | openFail
  | enumFail (failPage : Nat)
  | ok
deriving DecidableEq

/-- The success path of entering editing mode (`viewer.tsx` lines 96-163):
open a temporary session, enumerate every page in order, store the blocks,
create one overlay per block, and discard the temporary session in the
`finally` step. -/
def enterEditingSuccess (doc : List (List TextBlock)) (s : ViewerState) :
    ViewerState × List Event :=
  let allTextBlocks := collectTextBlocks doc 0
  let newOverlays := allTextBlocks.map overlayIdOf
  ({ s with textBlocks := allTextBlocks, overlays := newOverlays,
            isEditing := true, isProcessing := false },
   Event.sessionOpen :: (List.range doc.length).map Event.getBlocks ++
     allTextBlocks.map overlayCreateEvent ++ [Event.discard])

/-- The Content Boxes toolbar handler `handleContentBoxesPress`
(`viewer.tsx` lines 73-173).  Guard: dropped while `isProcessing`.  When
already editing: remove every overlay and clear local state.  Otherwise:
set `isEditing`, open a temporary session, enumerate pages and build
overlays; on a session-open or enumeration failure the outer `catch` logs
the error and reverts `isEditing`, the temporary session (if opened) having
been discarded by the inner `finally`; `isProcessing` is reset in the outer
`finally` on every path. -/
def handleContentBoxesPress (doc : List (List TextBlock)) (outcome : ToggleOutcome)
    (s : ViewerState) : ViewerState × List Event :=
  if s.isProcessing then (s, [])
  else if s.isEditing then
    ({ s with overlays := [], textBlocks := [], selected := [],
              isEditing := false, isProcessing := false },
     s.overlays.map Event.overlayRemove)
  else
    match outcome with
    | .openFail =>
        ({ s with isEditing := false, isProcessing := false }, [Event.logError])
    | .enumFail k =>
        if k < doc.length then
          ({ s with isEditing := false, isProcessing := false },
           Event.sessionOpen :: (List.range k).map Event.getBlocks ++
             [Event.discard, Event.logError])
        else
          enterEditingSuccess doc s
    | .ok => enterEditingSuccess doc s

/-- The per-overlay click listener (`viewer.tsx` lines 127-142).  The first
component is the overlay div's border colour, the second the `selected`
list; a click flips the colour and adds the block (deduplicated by id) when
the border was blue (or unset), or removes every block with its id when the
border was red. -/
def overlayClickStep (textBlock : TextBlockWithPage) (borderColor : String)
    (selected : List TextBlockWithPage) : String × List TextBlockWithPage :=
  let isCurrentlyBlue := borderColor = "blue" ∨ borderColor = ""
  let newColor := if isCurrentlyBlue then "red" else "blue"
  let newSelected :=
    if isCurrentlyBlue then
      if selected.any (fun tb => tb.id = textBlock.id) then selected
      else selected ++ [textBlock]
    else
      selected.filter (fun tb => tb.id ≠ textBlock.id)
  (newColor, newSelected)

/-- Injected failure points of the replacement handler: session open,
`updateTextBlocks`, or `commit` throwing, or full success. -/
inductive ReplaceOutcome where
  | openFail
  | updateFail
  | commitFail
  | ok
deriving DecidableEq

/-- The replacement payload (`viewer.tsx` lines 282-293): one
`UpdatedTextBlock` per selected block, in order, carrying the block's id and
a freshly generated replacement text; block number `i` consumes the choice
stream `choices i`. -/
def computeUpdates (choices : Nat → Nat → Nat) :
    Nat → List TextBlockWithPage → List UpdatedTextBlock
  | _, [] => []
  | i, tb :: rest =>
      { id := tb.id, text := some (generateRandomText (choices i) tb.text),
        anchor := none, maxWidth := none } :: computeUpdates choices (i + 1) rest

/-- The AI Replace toolbar handler (`viewer.tsx` lines 192-324).  Guards: a
`console.warn` no-op unless editing with a non-empty selection, and a silent
drop while `isProcessing`.  Success: open a session, submit the batch,
commit, then remove every overlay and clear all editing state.  A batch or
commit failure hits the inner `catch` (log, `session.discard()`, rethrow)
and then the outer `catch` (log), leaving all state but `isProcessing`
untouched; a session-open failure only hits the outer `catch`. -/
def aiReplacePress (choices : Nat → Nat → Nat) (outcome : ReplaceOutcome)
    (s : ViewerState) : ViewerState × List Event :=
  if !s.isEditing || s.selected.isEmpty then (s, [Event.logWarn])
  else if s.isProcessing then (s, [])
  else
    match outcome with
    | .openFail => ({ s with isProcessing := false }, [Event.logError])
    | .updateFail =>
        ({ s with isProcessing := false },
         [Event.sessionOpen, Event.logError, Event.discard, Event.logError])
    | .commitFail =>
        ({ s with isProcessing := false },
         [Event.sessionOpen, Event.updateBlocks (computeUpdates choices 0 s.selected),
          Event.logError, Event.discard, Event.logError])
    | .ok =>
        ({ s with overlays := [], textBlocks := [], selected := [],
                  isEditing := false, isProcessing := false },
         Event.sessionOpen :: Event.updateBlocks (computeUpdates choices 0 s.selected) ::
           Event.commit :: s.overlays.map Event.overlayRemove)

/-- The two toolbar operations serialized by the `isProcessing` flag. -/
inductive Op where
  | contentBoxes
  | aiReplace
deriving DecidableEq

/-- The synchronous guard prefix run by each handler before it sets the busy
flag: `handleContentBoxesPress` drops the invocation while `isProcessing`
(`viewer.tsx` lines 77-80); the AI handler additionally rejects when not
editing or when nothing is selected (lines 193-201). -/
def startGuardRejects (s : ViewerState) : Op → Bool
  | .contentBoxes => s.isProcessing
  | .aiReplace => (!s.isEditing || s.selected.isEmpty) || s.isProcessing

/-- Event-loop machine state for the concurrency discipline: the view state
together with the multiset (as a list) of toolbar operations that have been
started and not yet finished. -/
structure Machine where
  view : ViewerState
  inFlight : List Op
deriving DecidableEq

/-- Labels for the event-loop transitions. -/
inductive Act where
  | invoke (o : Op)
  | finish (o : Op)
  | clickOverlay
  | pageChange
deriving DecidableEq

/-- Single-threaded event-loop transitions.  Invoking an operation either is
dropped by its guard (no state change) or sets the busy flag and becomes
in-flight; an in-flight operation finishes by applying the remainder of its
handler, which on every execution path ends by clearing the busy flag in a
`finally` step (captured by the hypothesis `hv`); overlay clicks and page
notifications may interleave and never touch the busy flag. -/
inductive MStep : Machine → Act → Machine → Prop where
  | invokeDropped (m : Machine) (o : Op)
      (h : startGuardRejects m.view o = true) :
      MStep m (.invoke o) m
  | invokeStarted (m : Machine) (o : Op)
      (h : startGuardRejects m.view o = false) :
      MStep m (.invoke o) ⟨{ m.view with isProcessing := true }, o :: m.inFlight⟩
  | finished (m : Machine) (o : Op) (rest : List Op) (v : ViewerState)
      (h : m.inFlight = o :: rest) (hv : v.isProcessing = false) :
      MStep m (.finish o) ⟨v, rest⟩
  | clicked (m : Machine) (tb : TextBlockWithPage) (border : String)
      (h : tb ∈ m.view.textBlocks) :
      MStep m .clickOverlay
        ⟨{ m.view with selected := (overlayClickStep tb border m.view.selected).2 },
         m.inFlight⟩
  | paged (m : Machine) (n : Nat) :
      MStep m .pageChange ⟨{ m.view with currentPageIndex := n }, m.inFlight⟩

/-- The machine at mount time: fresh view state, nothing in flight. -/
def initMachine : Machine := ⟨initViewerState, []⟩

/-- Machine states reachable from mount by event-loop steps. -/
def MachineReachable (m : Machine) : Prop :=
  Relation.ReflTransGen (fun a b => ∃ act, MStep a act b) initMachine m

/-- Atomic view-state transitions: a full run of either toolbar handler
(with any document contents, any injected outcome, any random choices), an
overlay click (the click listener closes over a block of the stored block
list), or a page-change notification. -/
inductive VStep : ViewerState → ViewerState → Prop where
  | toggle (doc : List (List TextBlock)) (outcome : ToggleOutcome) (s : ViewerState) :
      VStep s (handleContentBoxesPress doc outcome s).1
  | replace (choices : Nat → Nat → Nat) (outcome : ReplaceOutcome) (s : ViewerState) :
      VStep s (aiReplacePress choices outcome s).1
  | click (s : ViewerState) (tb : TextBlockWithPage) (border : String)
      (h : tb ∈ s.textBlocks) :
      VStep s { s with selected := (overlayClickStep tb border s.selected).2 }
  | page (s : ViewerState) (n : Nat) :
      VStep s { s with currentPageIndex := n }

/-- View states reachable from the initial state. -/
def ViewerReachable (s : ViewerState) : Prop :=
  Relation.ReflTransGen VStep initViewerState s

/-- Demo region r0, page 0 of the concrete scenario. -/
def rb0 : TextBlock :=
  { id := "r0", text := ("The first page opening paragraph").toList,
    boundingBox := ⟨40, 50, 300, 24⟩, anchor := ⟨50, 64⟩, maxWidth := 300 }

/-- Demo region r1, page 0 of the concrete scenario. -/
def rb1 : TextBlock :=
  { id := "r1", text := ("Second block of page zero").toList,
    boundingBox := ⟨80, 50, 280, 20⟩, anchor := ⟨50, 100⟩, maxWidth := 280 }

/-- Demo region r2, page 0 of the concrete scenario. -/
def rb2 : TextBlock :=
  { id := "r2", text := ("Third block closing page zero").toList,
    boundingBox := ⟨120, 50, 260, 20⟩, anchor := ⟨50, 140⟩, maxWidth := 260 }

/-- Demo region r3, page 1 of the concrete scenario. -/
def rb3 : TextBlock :=
  { id := "r3", text := ("Page one starts with this").toList,
    boundingBox := ⟨40, 60, 320, 22⟩, anchor := ⟨60, 62⟩, maxWidth := 320 }

/-- Demo region r4, page 1 of the concrete scenario. -/
def rb4 : TextBlock :=
  { id := "r4", text := ("Page one second and last").toList,
    boundingBox := ⟨90, 60, 310, 22⟩, anchor := ⟨60, 112⟩, maxWidth := 310 }

/-- The concrete scenario document: 2 pages with 3 and 2 text regions. -/
def demoDoc : List (List TextBlock) := [[rb0, rb1, rb2], [rb3, rb4]]

/-- Region r2 as stored with its page index. -/
def demoB2 : TextBlockWithPage := { toTextBlock := rb2, pageIndex := 0 }

/-- Region r4 as stored with its page index. -/
def demoB4 : TextBlockWithPage := { toTextBlock := rb4, pageIndex := 1 }

/-- State after activating editing mode on the demo document. -/
def demoS1 : ViewerState := (handleContentBoxesPress demoDoc .ok initViewerState).1

/-- Event trace of activating editing mode on the demo document. -/
def demoEvents1 : List Event := (handleContentBoxesPress demoDoc .ok initViewerState).2

/-- State after additionally clicking the overlays of r2 and then r4
(each overlay's border starts blue). -/
def demoS2 : ViewerState :=
  { demoS1 with
    selected := (overlayClickStep demoB4 "blue"
      (overlayClickStep demoB2 "blue" demoS1.selected).2).2 }

/-- A concrete deterministic stand-in for the random choice streams. -/
def demoChoices : Nat → Nat → Nat := fun _ _ => 0

/-- A concrete machine state with one operation in flight. -/
def demoM1 : Machine := ⟨{ initViewerState with isProcessing := true }, [Op.contentBoxes]⟩

/-- The identifiers of a list of stored blocks, in order. -/
def blockIds (l : List TextBlockWithPage) : List String := l.map (fun tb => tb.id)

/-- The strengthened view-state invariant: every selected block's id is
stored; while editing, the overlay count equals the stored block count; and
outside editing mode every local mirror is empty. -/
def StateInv (s : ViewerState) : Prop :=
  (∀ tb ∈ s.selected, tb.id ∈ blockIds s.textBlocks) ∧
  (s.isEditing = true → s.overlays.length = s.textBlocks.length) ∧
  (s.isEditing = false → s.selected = [] ∧ s.overlays = [] ∧ s.textBlocks = [])

/-- The machine invariant: at most one operation is in flight and the busy
flag is set exactly while one is. -/
def MachineInv (m : Machine) : Prop :=
  m.inFlight.length ≤ 1 ∧ (m.view.isProcessing = true ↔ m.inFlight ≠ [])

/-- The greedy loop only ever replaces the running result with a candidate
that already passed the `testResult.length <= originalLength` check, so the
bound is preserved from the initial (empty) result. -/
lemma genLoop_length_le (L : Nat) (c : Nat → Nat) :
    ∀ (fuel attempts : Nat) (r : List Char), r.length ≤ L →
      (genLoop L c fuel attempts r).length ≤ L := by
  intro fuel
  induction fuel with
  | zero => intro a r h; simpa [genLoop] using h
  | succ f ih =>
    intro a r h
    simp only [genLoop]
    split_ifs
    all_goals first
      | exact h
      | exact ih (a + 1) _ (by assumption)

/-- One unit of fuel beyond the attempts budget is already irrelevant:
when `100 ≤ f + attempts` the loop exits before consuming `f` iterations. -/
lemma genLoop_succ_stable (L : Nat) (c : Nat → Nat) :
    ∀ (f a : Nat) (r : List Char), 100 ≤ f + a →
      genLoop L c (f + 1) a r = genLoop L c f a r := by
  intro f
  induction f with
  | zero =>
    intro a r h
    simp only [genLoop]
    rw [if_neg]
    intro hc
    omega
  | succ f ih =>
    intro a r h
    conv_lhs => rw [genLoop]
    conv_rhs => rw [genLoop]
    dsimp only
    split_ifs
    all_goals first
      | rfl
      | exact ih (a + 1) _ (by omega)

/-- Adding any amount of fuel beyond the attempts budget does not change the
loop's result. -/
lemma genLoop_add_stable (L : Nat) (c : Nat → Nat) (k : Nat) :
    ∀ (f a : Nat) (r : List Char), 100 ≤ f + a →
      genLoop L c (f + k) a r = genLoop L c f a r := by
  induction k with
  | zero => intro f a r _; rfl
  | succ k ih =>
    intro f a r h
    have he : f + (k + 1) = (f + k) + 1 := by omega
    rw [he, genLoop_succ_stable L c (f + k) a r (by omega), ih f a r h]

/-- JavaScript `trim` never lengthens a string. -/
lemma jsTrim_length_le (s : List Char) : (jsTrim s).length ≤ s.length := by
  have h1 : ((s.dropWhile Char.isWhitespace).reverse.dropWhile Char.isWhitespace).length ≤
      (s.dropWhile Char.isWhitespace).reverse.length :=
    (List.dropWhile_sublist _).length_le
  have h2 : (s.dropWhile Char.isWhitespace).length ≤ s.length :=
    (List.dropWhile_sublist _).length_le
  simp only [jsTrim, List.length_reverse] at h1 ⊢
  omega

/-- Whenever the original text has at least the 7 characters of the fixed
fallback, the generated replacement is no longer than the original: the
final hard-truncation step caps every non-empty result at the original
length, and the empty-result fallback has length 7. -/
lemma generateRandomText_length_le (c : Nat → Nat) (s : List Char)
    (h : 7 ≤ s.length) : (generateRandomText c s).length ≤ s.length := by
  simp only [generateRandomText]
  split_ifs
  all_goals first
    | exact le_trans (by decide) h
    | exact le_trans (jsTrim_length_le _) (List.length_take_le _ _)
    | omega

/-- The generated replacement is bounded by the maximum of the original
length and the fallback length 7, for every input. -/
lemma generateRandomText_length_le_max (c : Nat → Nat) (s : List Char) :
    (generateRandomText c s).length ≤ max s.length 7 := by
  simp only [generateRandomText]
  split_ifs
  all_goals first
    | exact le_trans (by decide) (le_max_right _ _)
    | exact le_trans (le_trans (jsTrim_length_le _) (List.length_take_le _ _))
        (le_max_left _ _)
    | (refine le_trans ?_ (le_max_left _ _); omega)

/-- The generator never returns the empty string: the final fallback
replaces an empty result with the fixed placeholder. -/
lemma generateRandomText_ne_nil (c : Nat → Nat) (s : List Char) :
    generateRandomText c s ≠ [] := by
  simp only [generateRandomText]
  split_ifs
  all_goals first
    | decide
    | assumption

/-- C1 as stated is false: on the one-character input "a" (every choice
sequence behaves the same there, since the greedy loop and the padding never
run for inputs shorter than 11 characters) the generator returns the fixed
fallback placeholder `'AI text'` of length 7, which exceeds the input
length 1. -/
theorem generateRandomText_length_claim_fails_on_short_input :
    ¬ ((generateRandomText (fun _ => 0) ("a").toList).length ≤
        (("a").toList).length) := by
  decide

/-- C1 (amended): for every input string and every sequence of random word
choices, `generateRandomText` returns a non-empty string whose length is at
most `max (length input) 7`; in particular, whenever the input has at least
the 7 characters of the fixed fallback placeholder, the output is no longer
than the input.  (The claim's unconditional bound `length ≤ length input`
holds except on inputs shorter than the fallback placeholder.) -/
theorem generateRandomText_length_bound (choices : Nat → Nat) (s : List Char) :
    generateRandomText choices s ≠ [] ∧
    (generateRandomText choices s).length ≤ max s.length 7 ∧
    (7 ≤ s.length → (generateRandomText choices s).length ≤ s.length) :=
  ⟨generateRandomText_ne_nil choices s,
   generateRandomText_length_le_max choices s,
   fun h => generateRandomText_length_le choices s h⟩

/-- Witness for the amended C1 at the concrete input "abcdefghij". -/
theorem generateRandomText_length_bound_witness :
    generateRandomText (fun _ => 0) ("abcdefghij").toList ≠ [] ∧
    (generateRandomText (fun _ => 0) ("abcdefghij").toList).length ≤
      (("abcdefghij").toList).length :=
  ⟨(generateRandomText_length_bound (fun _ => 0) (("abcdefghij").toList)).1,
   (generateRandomText_length_bound (fun _ => 0) (("abcdefghij").toList)).2.2
     (by decide)⟩

/-- C10: the greedy word-concatenation loop terminates through its own
`attempts < 100` bound: its result is independent of the structural fuel as
soon as the fuel covers the 100-attempt budget, for every original length,
every choice sequence and hence every input string, so the loop run inside
`generateRandomText` (at fuel 100) is a total function whose value no
larger fuel bound could change. -/
theorem genLoop_fuel_independent (L : Nat) (c : Nat → Nat) (fuelA fuelB : Nat)
    (hA : 100 ≤ fuelA) (hB : 100 ≤ fuelB) :
    genLoop L c fuelA 0 [] = genLoop L c fuelB 0 [] := by
  have eA : fuelA = 100 + (fuelA - 100) := by omega
  have eB : fuelB = 100 + (fuelB - 100) := by omega
  rw [eA, eB, genLoop_add_stable L c (fuelA - 100) 100 0 [] (by omega),
      genLoop_add_stable L c (fuelB - 100) 100 0 [] (by omega)]

/-- Witness for C10 at a concrete length, choice stream and fuel pair. -/
theorem genLoop_fuel_independent_witness :
    genLoop 30 (fun _ => 1) 100 0 [] = genLoop 30 (fun _ => 1) 137 0 [] :=
  genLoop_fuel_independent 30 (fun _ => 1) 100 137 (by decide) (by decide)

/-- A non-empty list is not `isEmpty`. -/
lemma isEmpty_eq_false_of_ne_nil {α : Type} {l : List α} (h : l ≠ []) :
    l.isEmpty = false := by
  cases l with
  | nil => exact absurd rfl h
  | cons a t => rfl

/-- C2: when the batch text-block update or the commit step fails, the
write session is discarded before the error reaches the outer handler's log
(the trace ends with the inner error log, the discard, then the outer error
log), no commit is recorded, and the overlay list, stored region list,
selection set and editing flag all keep their prior values — only the busy
flag is reset. -/
theorem aiReplace_failure_discards_and_preserves_state
    (choices : Nat → Nat → Nat) (outcome : ReplaceOutcome) (s : ViewerState)
    (hEdit : s.isEditing = true) (hSel : s.selected ≠ [])
    (hBusy : s.isProcessing = false)
    (hFail : outcome = ReplaceOutcome.updateFail ∨
             outcome = ReplaceOutcome.commitFail) :
    (aiReplacePress choices outcome s).1.overlays = s.overlays ∧
    (aiReplacePress choices outcome s).1.textBlocks = s.textBlocks ∧
    (aiReplacePress choices outcome s).1.selected = s.selected ∧
    (aiReplacePress choices outcome s).1.isEditing = s.isEditing ∧
    (aiReplacePress choices outcome s).1.isProcessing = false ∧
    (aiReplacePress choices outcome s).2 =
      [Event.sessionOpen] ++
        (if outcome = ReplaceOutcome.commitFail then
          [Event.updateBlocks (computeUpdates choices 0 s.selected)] else []) ++
        [Event.logError, Event.discard, Event.logError] ∧
    Event.commit ∉ (aiReplacePress choices outcome s).2 := by
  have hne : s.selected.isEmpty = false := isEmpty_eq_false_of_ne_nil hSel
  rcases hFail with h | h <;> subst h <;>
    simp [aiReplacePress, hEdit, hne, hBusy]

/-- Witness for C2 at the concrete demo state with a failing batch update. -/
theorem aiReplace_failure_discards_and_preserves_state_witness :
    (aiReplacePress demoChoices ReplaceOutcome.updateFail demoS2).1.selected =
      demoS2.selected ∧
    Event.commit ∉ (aiReplacePress demoChoices ReplaceOutcome.updateFail demoS2).2 :=
  ⟨(aiReplace_failure_discards_and_preserves_state demoChoices
      ReplaceOutcome.updateFail demoS2 (by decide) (by decide) (by decide)
      (Or.inl rfl)).2.2.1,
   (aiReplace_failure_discards_and_preserves_state demoChoices
      ReplaceOutcome.updateFail demoS2 (by decide) (by decide) (by decide)
      (Or.inl rfl)).2.2.2.2.2.2⟩

/-- C3: when the guards pass and the batch update and commit both succeed,
the post-state has an empty selection set, an empty overlay list, an empty
stored region list, and editing mode off. -/
theorem aiReplace_success_clears_editing_state
    (choices : Nat → Nat → Nat) (s : ViewerState)
    (hEdit : s.isEditing = true) (hSel : s.selected ≠ [])
    (hBusy : s.isProcessing = false) :
    (aiReplacePress choices ReplaceOutcome.ok s).1.selected = [] ∧
    (aiReplacePress choices ReplaceOutcome.ok s).1.overlays = [] ∧
    (aiReplacePress choices ReplaceOutcome.ok s).1.textBlocks = [] ∧
    (aiReplacePress choices ReplaceOutcome.ok s).1.isEditing = false := by
  have hne : s.selected.isEmpty = false := isEmpty_eq_false_of_ne_nil hSel
  simp [aiReplacePress, hEdit, hne, hBusy]

/-- Witness for C3 at the concrete demo state. -/
theorem aiReplace_success_clears_editing_state_witness :
    (aiReplacePress demoChoices ReplaceOutcome.ok demoS2).1.selected = [] ∧
    (aiReplacePress demoChoices ReplaceOutcome.ok demoS2).1.overlays = [] ∧
    (aiReplacePress demoChoices ReplaceOutcome.ok demoS2).1.textBlocks = [] ∧
    (aiReplacePress demoChoices ReplaceOutcome.ok demoS2).1.isEditing = false :=
  aiReplace_success_clears_editing_state demoChoices demoS2
    (by decide) (by decide) (by decide)

/-- C5: invoking the replacement action while not in editing mode, or with
an empty selection set, leaves the whole local state unchanged (including
the busy flag) and produces exactly one diagnostic warning log — no session
is opened and no error is raised — whatever the injected outcome. -/
theorem aiReplace_guard_is_noop (choices : Nat → Nat → Nat)
    (outcome : ReplaceOutcome) (s : ViewerState)
    (h : s.isEditing = false ∨ s.selected = []) :
    (aiReplacePress choices outcome s).1 = s ∧
    (aiReplacePress choices outcome s).2 = [Event.logWarn] := by
  have hguard : (!s.isEditing || s.selected.isEmpty) = true := by
    rcases h with h | h <;> simp [h]
  simp [aiReplacePress, hguard]

/-- Witness for C5 at the initial state (editing mode inactive). -/
theorem aiReplace_guard_is_noop_witness :
    (aiReplacePress demoChoices ReplaceOutcome.ok initViewerState).1 =
      initViewerState ∧
    (aiReplacePress demoChoices ReplaceOutcome.ok initViewerState).2 =
      [Event.logWarn] :=
  aiReplace_guard_is_noop demoChoices ReplaceOutcome.ok initViewerState
    (Or.inl rfl)

/-- Page-enumeration events contain no session open. -/
lemma count_open_map_getBlocks (n : Nat) :
    ((List.range n).map Event.getBlocks).count Event.sessionOpen = 0 := by
  rw [List.count_eq_zero]
  simp [List.mem_map]

/-- Page-enumeration events contain no discard. -/
lemma count_discard_map_getBlocks (n : Nat) :
    ((List.range n).map Event.getBlocks).count Event.discard = 0 := by
  rw [List.count_eq_zero]
  simp [List.mem_map]

/-- Overlay-creation events contain no session open. -/
lemma count_open_map_create (l : List TextBlockWithPage) :
    (l.map overlayCreateEvent).count Event.sessionOpen = 0 := by
  rw [List.count_eq_zero]
  simp [List.mem_map, overlayCreateEvent]

/-- Overlay-creation events contain no discard. -/
lemma count_discard_map_create (l : List TextBlockWithPage) :
    (l.map overlayCreateEvent).count Event.discard = 0 := by
  rw [List.count_eq_zero]
  simp [List.mem_map, overlayCreateEvent]

/-- Overlay-removal events contain no session open. -/
lemma count_open_map_remove (l : List String) :
    (l.map Event.overlayRemove).count Event.sessionOpen = 0 := by
  rw [List.count_eq_zero]
  simp [List.mem_map]

/-- Overlay-removal events contain no discard. -/
lemma count_discard_map_remove (l : List String) :
    (l.map Event.overlayRemove).count Event.discard = 0 := by
  rw [List.count_eq_zero]
  simp [List.mem_map]

/-- C7: the temporary read session of the editing-mode toggle is released
on every execution path — in every trace the number of session opens equals
the number of discards — and on a session-open or page-enumeration failure
the handler merely logs the error, reverts editing mode to off, leaves all
stored state unchanged, and creates no overlay at all (overlay creation
only begins after every page has enumerated successfully). -/
theorem contentBoxes_session_always_released (doc : List (List TextBlock))
    (outcome : ToggleOutcome) (s : ViewerState) :
    ((handleContentBoxesPress doc outcome s).2.count Event.sessionOpen =
      (handleContentBoxesPress doc outcome s).2.count Event.discard) ∧
    (s.isProcessing = false → s.isEditing = false →
      (outcome = ToggleOutcome.openFail ∨
        ∃ k, k < doc.length ∧ outcome = ToggleOutcome.enumFail k) →
      (handleContentBoxesPress doc outcome s).1.isEditing = false ∧
      (handleContentBoxesPress doc outcome s).1.overlays = s.overlays ∧
      (handleContentBoxesPress doc outcome s).1.textBlocks = s.textBlocks ∧
      (handleContentBoxesPress doc outcome s).1.selected = s.selected ∧
      Event.logError ∈ (handleContentBoxesPress doc outcome s).2 ∧
      (handleContentBoxesPress doc outcome s).2.filter isOverlayCreate = []) := by
  constructor
  · rcases outcome with _ | k | _ <;>
      · unfold handleContentBoxesPress enterEditingSuccess
        dsimp only
        split_ifs <;>
          simp [List.count_append, List.count_cons, count_open_map_getBlocks,
            count_discard_map_getBlocks, count_open_map_create,
            count_discard_map_create, count_open_map_remove,
            count_discard_map_remove]
  · intro hBusy hEdit hFail
    rcases hFail with h | ⟨k, hk, h⟩ <;> subst h
    · simp [handleContentBoxesPress, hBusy, hEdit, isOverlayCreate]
    · simp [handleContentBoxesPress, hBusy, hEdit, hk, isOverlayCreate,
        List.filter_append, List.filter_map]

/-- Witness for C7 at the demo document with enumeration failing on page 1. -/
theorem contentBoxes_session_always_released_witness :
    (handleContentBoxesPress demoDoc (ToggleOutcome.enumFail 1)
        initViewerState).2.count Event.sessionOpen =
      (handleContentBoxesPress demoDoc (ToggleOutcome.enumFail 1)
        initViewerState).2.count Event.discard ∧
    (handleContentBoxesPress demoDoc (ToggleOutcome.enumFail 1)
        initViewerState).1.isEditing = false ∧
    (handleContentBoxesPress demoDoc (ToggleOutcome.enumFail 1)
        initViewerState).2.filter isOverlayCreate = [] :=
  ⟨(contentBoxes_session_always_released demoDoc (ToggleOutcome.enumFail 1)
      initViewerState).1,
   ((contentBoxes_session_always_released demoDoc (ToggleOutcome.enumFail 1)
      initViewerState).2 rfl rfl (Or.inr ⟨1, by decide, rfl⟩)).1,
   ((contentBoxes_session_always_released demoDoc (ToggleOutcome.enumFail 1)
      initViewerState).2 rfl rfl (Or.inr ⟨1, by decide, rfl⟩)).2.2.2.2.2⟩

/-- C8: activating editing mode on the 2-page demo document (3 regions on
page 0, 2 on page 1) enumerates pages 0 and 1 in order and creates exactly
one overlay per region — 5 in total — each positioned at its region's
top-left coordinate with the bounding box's width and height; selecting the
regions with ids r2 and r4 and then activating replacement submits exactly
one batch of exactly 2 updates, one per selected id, each replacement text
no longer than the original, for every choice of random streams. -/
theorem demo_scenario_five_overlays_two_updates (choices : Nat → Nat → Nat) :
    demoS1.overlays.length = 5 ∧
    demoEvents1 =
      [Event.sessionOpen, Event.getBlocks 0, Event.getBlocks 1,
       Event.overlayCreate "overlay-r0" 0 50 40 300 24,
       Event.overlayCreate "overlay-r1" 0 50 80 280 20,
       Event.overlayCreate "overlay-r2" 0 50 120 260 20,
       Event.overlayCreate "overlay-r3" 1 60 40 320 22,
       Event.overlayCreate "overlay-r4" 1 60 90 310 22,
       Event.discard] ∧
    (aiReplacePress choices ReplaceOutcome.ok demoS2).2 =
      Event.sessionOpen ::
        Event.updateBlocks
          [{ id := "r2", text := some (generateRandomText (choices 0) rb2.text),
             anchor := none, maxWidth := none },
           { id := "r4", text := some (generateRandomText (choices 1) rb4.text),
             anchor := none, maxWidth := none }] ::
        Event.commit :: demoS2.overlays.map Event.overlayRemove ∧
    (generateRandomText (choices 0) rb2.text).length ≤ rb2.text.length ∧
    (generateRandomText (choices 1) rb4.text).length ≤ rb4.text.length := by
  refine ⟨by decide, by decide, ?_, ?_, ?_⟩
  · rfl
  · exact generateRandomText_length_le (choices 0) rb2.text (by decide)
  · exact generateRandomText_length_le (choices 1) rb4.text (by decide)

/-- When the clicked block's id is absent from the selection, the
deduplication check fails. -/
lemma any_id_eq_false {tb : TextBlockWithPage} {sel : List TextBlockWithPage}
    (h : tb.id ∉ blockIds sel) :
    (sel.any fun b => b.id = tb.id) = false := by
  rw [List.any_eq_false]
  intro x hx
  simp only [decide_eq_true_eq]
  intro hxe
  exact h (List.mem_map.mpr ⟨x, hx, hxe⟩)

/-- A click on a visually unselected overlay whose id is absent appends the
block and turns the border red. -/
lemma overlayClickStep_blue_absent (tb : TextBlockWithPage) (border : String)
    (sel : List TextBlockWithPage) (hb : border = "blue" ∨ border = "")
    (habs : tb.id ∉ blockIds sel) :
    overlayClickStep tb border sel = ("red", sel ++ [tb]) := by
  simp only [overlayClickStep, if_pos hb, any_id_eq_false habs]
  simp

/-- A click on a visually selected overlay removes every block with its id
and turns the border blue. -/
lemma overlayClickStep_red (tb : TextBlockWithPage) (border : String)
    (sel : List TextBlockWithPage) (hb : ¬ (border = "blue" ∨ border = "")) :
    overlayClickStep tb border sel =
      ("blue", sel.filter (fun b => b.id ≠ tb.id)) := by
  simp only [overlayClickStep, if_neg hb]

/-- The border string "red" does not classify as visually unselected. -/
lemma red_not_blue : ¬ (("red" : String) = "blue" ∨ ("red" : String) = "") := by
  decide

/-- Identifiers of a singleton block list. -/
lemma blockIds_singleton (tb : TextBlockWithPage) : blockIds [tb] = [tb.id] := rfl

/-- Identifiers distribute over list append. -/
lemma blockIds_append (l₁ l₂ : List TextBlockWithPage) :
    blockIds (l₁ ++ l₂) = blockIds l₁ ++ blockIds l₂ := by
  simp [blockIds]

/-- Filtering blocks by id commutes with taking identifiers. -/
lemma blockIds_filter (tbid : String) (sel : List TextBlockWithPage) :
    blockIds (sel.filter fun b => b.id ≠ tbid) =
      (blockIds sel).filter (fun i => i ≠ tbid) := by
  induction sel with
  | nil => rfl
  | cons a l ih =>
    simp only [blockIds, List.map_cons, List.filter_cons] at ih ⊢
    by_cases h : a.id = tbid
    · simpa [h] using ih
    · simpa [h] using ih

/-- C4 as stated is false: quantifying over every selection-set state
includes states where the overlay's visual state reads unselected while its
region's id is already a member of the selection set (reachable when the
SDK reports two regions sharing an id); there, clicking the overlay twice
removes the id, changing the selection set's membership. -/
theorem overlayClick_double_click_claim_fails :
    ¬ (("r2" ∈ blockIds (overlayClickStep demoB2
          (overlayClickStep demoB2 "blue" [demoB2]).1
          (overlayClickStep demoB2 "blue" [demoB2]).2).2) ↔
       ("r2" ∈ blockIds [demoB2])) := by
  decide

/-- C4 (amended): provided the overlay's visual state is coherent with the
selection set — the border reads unselected (blue, or the initial empty
style) exactly when the region's id is absent — clicking the overlay twice
in succession leaves the selection set's membership (its set of ids)
unchanged; and a single click makes the region's id a member when the
visual state was unselected, and removes it (by identifier) when the visual
state was selected. -/
theorem overlayClick_toggle_membership (tb : TextBlockWithPage)
    (border : String) (sel : List TextBlockWithPage)
    (hcoh : (border = "blue" ∨ border = "") ↔ tb.id ∉ blockIds sel) :
    (blockIds (overlayClickStep tb
        (overlayClickStep tb border sel).1
        (overlayClickStep tb border sel).2).2).toFinset =
      (blockIds sel).toFinset ∧
    ((border = "blue" ∨ border = "") →
      tb.id ∈ blockIds (overlayClickStep tb border sel).2) ∧
    (¬ (border = "blue" ∨ border = "") →
      tb.id ∉ blockIds (overlayClickStep tb border sel).2) := by
  by_cases hb : (border = "blue" ∨ border = "")
  · have habs : tb.id ∉ blockIds sel := hcoh.mp hb
    rw [overlayClickStep_blue_absent tb border sel hb habs]
    dsimp only
    rw [overlayClickStep_red tb "red" (sel ++ [tb]) red_not_blue]
    dsimp only
    refine ⟨?_, fun _ => ?_, fun hc => absurd hb hc⟩
    · rw [blockIds_filter tb.id (sel ++ [tb]), blockIds_append,
        List.filter_append]
      have h2 : (blockIds sel).filter (fun i => i ≠ tb.id) = blockIds sel :=
        List.filter_eq_self.mpr (fun a ha => by
          have hne : a ≠ tb.id := fun he => habs (he ▸ ha)
          simpa using hne)
      have h3 : (blockIds [tb]).filter (fun i => i ≠ tb.id) = [] := by
        simp [blockIds]
      rw [h2, h3, List.append_nil]
    · rw [blockIds_append]
      simp [blockIds_singleton]
  · have hmem : tb.id ∈ blockIds sel := by
      by_contra hc
      exact hb (hcoh.mpr hc)
    rw [overlayClickStep_red tb border sel hb]
    dsimp only
    have habs₁ : tb.id ∉ blockIds (sel.filter fun b => b.id ≠ tb.id) := by
      rw [blockIds_filter]
      simp
    rw [overlayClickStep_blue_absent tb "blue" _ (Or.inl rfl) habs₁]
    dsimp only
    refine ⟨?_, fun hc => absurd hc hb, fun _ => habs₁⟩
    rw [blockIds_append, blockIds_filter]
    ext x
    simp only [List.mem_toFinset, List.mem_append, List.mem_filter,
      List.mem_singleton, ne_eq, decide_not, Bool.not_eq_eq_eq_not,
      Bool.not_false, decide_eq_true_eq]
    by_cases hx : x = tb.id
    · subst hx
      simp [hmem, blockIds_singleton]
    · simp [hx, blockIds_singleton]

/-- Witness for the amended C4 at a concrete overlay, border and selection. -/
theorem overlayClick_toggle_membership_witness :
    (blockIds (overlayClickStep demoB2
        (overlayClickStep demoB2 "blue" []).1
        (overlayClickStep demoB2 "blue" []).2).2).toFinset =
      (blockIds []).toFinset :=
  (overlayClick_toggle_membership demoB2 "blue" [] (by decide)).1



/-- The initial view state satisfies the invariant. -/
lemma stateInv_init : StateInv initViewerState := by
  refine ⟨?_, fun _ => rfl, fun _ => ⟨rfl, rfl, rfl⟩⟩
  intro tb htb
  exact absurd htb (List.not_mem_nil tb)

/-- The editing-mode toggle preserves the state invariant for every
document, every injected outcome and every starting state. -/
lemma stateInv_toggle (doc : List (List TextBlock)) (outcome : ToggleOutcome)
    (s : ViewerState) (h : StateInv s) :
    StateInv (handleContentBoxesPress doc outcome s).1 := by
  obtain ⟨h1, h2, h3⟩ := h
  rcases outcome with _ | k | _ <;>
    · unfold handleContentBoxesPress enterEditingSuccess
      dsimp only
      split_ifs <;>
        first
          | exact ⟨h1, h2, h3⟩
          | · -- exit-editing branch: everything cleared
              refine ⟨?_, fun _ => rfl, fun _ => ⟨rfl, rfl, rfl⟩⟩
              intro tb htb
              exact absurd htb (List.not_mem_nil tb)
          | · -- failure branch: only the flags change, editing reverted
              have he : s.isEditing = false := by
                simp only [Bool.not_eq_true] at *
                assumption
              exact ⟨h1, fun hf => h2 (by simp at hf), fun _ => h3 he⟩
          | · -- successful entry: selection was empty outside editing mode
              have he : s.isEditing = false := by
                simp only [Bool.not_eq_true] at *
                assumption
              refine ⟨?_, fun _ => by simp [List.length_map], fun hf => ?_⟩
              · intro tb htb
                rw [(h3 he).1] at htb
                exact absurd htb (List.not_mem_nil tb)
              · exact absurd hf (by simp)

/-- The replacement handler preserves the state invariant for every choice
stream, every injected outcome and every starting state. -/
lemma stateInv_replace (choices : Nat → Nat → Nat) (outcome : ReplaceOutcome)
    (s : ViewerState) (h : StateInv s) :
    StateInv (aiReplacePress choices outcome s).1 := by
  obtain ⟨h1, h2, h3⟩ := h
  rcases outcome with _ | _ | _ | _ <;>
    · unfold aiReplacePress
      dsimp only
      split_ifs <;>
        first
          | exact ⟨h1, h2, h3⟩
          | · -- successful commit: everything cleared
              refine ⟨?_, fun _ => rfl, fun _ => ⟨rfl, rfl, rfl⟩⟩
              intro tb htb
              exact absurd htb (List.not_mem_nil tb)

/-- An overlay click preserves the state invariant: the click listener
closes over a block of the stored list, so additions reference stored ids
and removals only shrink the selection. -/
lemma stateInv_click (s : ViewerState) (tb : TextBlockWithPage)
    (border : String) (htb : tb ∈ s.textBlocks) (h : StateInv s) :
    StateInv { s with selected := (overlayClickStep tb border s.selected).2 } := by
  obtain ⟨h1, h2, h3⟩ := h
  refine ⟨?_, h2, ?_⟩
  · unfold overlayClickStep
    dsimp only
    split_ifs
    · exact h1
    · intro b hbmem
      rcases List.mem_append.mp hbmem with hbm | hbm
      · exact h1 b hbm
      · rw [List.mem_singleton.mp hbm]
        exact List.mem_map.mpr ⟨tb, htb, rfl⟩
    · intro b hbmem
      exact h1 b (List.mem_filter.mp hbmem).1
  · intro hne
    obtain ⟨hsel, ho, htbs⟩ := h3 hne
    rw [htbs] at htb
    exact absurd htb (List.not_mem_nil tb)

/-- A page-change notification preserves the state invariant. -/
lemma stateInv_page (s : ViewerState) (n : Nat) (h : StateInv s) :
    StateInv { s with currentPageIndex := n } := by
  obtain ⟨h1, h2, h3⟩ := h
  exact ⟨h1, h2, h3⟩

/-- Every reachable view state satisfies the strengthened invariant. -/
lemma stateInv_of_reachable (s : ViewerState) (h : ViewerReachable s) :
    StateInv s := by
  unfold ViewerReachable at h
  induction h with
  | refl => exact stateInv_init
  | tail hsteps hstep ih =>
      cases hstep
      · exact stateInv_toggle _ _ _ ih
      · exact stateInv_replace _ _ _ ih
      · exact stateInv_click _ _ _ (by assumption) ih
      · exact stateInv_page _ _ ih

/-- C9: in every reachable view state, every block in the selection set has
its identifier present in the stored region list, and while editing mode is
active the overlay list's length equals the stored region list's length;
both invariants are preserved by every operation (editing-mode toggle,
replacement, overlay click, page change), which is how reachability is
generated. -/
theorem reachable_state_invariants (s : ViewerState) (h : ViewerReachable s) :
    (∀ tb ∈ s.selected, tb.id ∈ blockIds s.textBlocks) ∧
    (s.isEditing = true → s.overlays.length = s.textBlocks.length) := by
  have hs := stateInv_of_reachable s h
  exact ⟨hs.1, hs.2.1⟩

/-- Witness for C9 at the state reached by entering editing mode on the
demo document. -/
theorem reachable_state_invariants_witness :
    demoS1.overlays.length = demoS1.textBlocks.length :=
  (reachable_state_invariants demoS1
    (Relation.ReflTransGen.single
      (VStep.toggle demoDoc ToggleOutcome.ok initViewerState))).2 (by decide)

/-- The machine at mount time satisfies the machine invariant. -/
lemma machineInv_init : MachineInv initMachine := by
  constructor
  · simp [initMachine]
  · simp [initMachine, initViewerState]

/-- Every event-loop step preserves the machine invariant. -/
lemma machineInv_step (m m2 : Machine) (act : Act) (hstep : MStep m act m2)
    (h : MachineInv m) : MachineInv m2 := by
  obtain ⟨h1, h2⟩ := h
  cases hstep
  · exact ⟨h1, h2⟩
  · rename_i o hg
    have hproc : m.view.isProcessing = false := by
      cases o with
      | contentBoxes => simpa [startGuardRejects] using hg
      | aiReplace =>
          simp only [startGuardRejects, Bool.or_eq_false_iff] at hg
          exact hg.2
    have hempty : m.inFlight = [] := by
      by_contra hne
      rw [h2.mpr hne] at hproc
      cases hproc
    exact ⟨by simp [hempty], by simp⟩
  · rename_i o rest v hin hv
    have hrest : rest = [] := by
      rw [hin, List.length_cons] at h1
      exact List.length_eq_zero.mp (by omega)
    exact ⟨by simp [hrest], by simp [hrest, hv]⟩
  · exact ⟨h1, h2⟩
  · exact ⟨h1, h2⟩

/-- C6: in every reachable machine state at most one toolbar operation is
in flight; while one is in flight the busy flag is set; and a new
invocation of either operation arriving while the busy flag is set leaves
the machine unchanged — it is dropped, not queued — so no second operation
can ever join the one in flight. -/
theorem busy_flag_serializes_operations (m : Machine) (h : MachineReachable m) :
    m.inFlight.length ≤ 1 ∧
    (m.inFlight ≠ [] → m.view.isProcessing = true) ∧
    (∀ (o : Op) (m2 : Machine), m.view.isProcessing = true →
      MStep m (Act.invoke o) m2 → m2 = m) := by
  have hm : MachineInv m := by
    unfold MachineReachable at h
    induction h with
    | refl => exact machineInv_init
    | tail hsteps hstep ih =>
        obtain ⟨act, hact⟩ := hstep
        exact machineInv_step _ _ act hact ih
  refine ⟨hm.1, fun hne => hm.2.mpr hne, ?_⟩
  intro o m2 hbusy hstep
  cases hstep
  · rfl
  · rename_i hg
    exfalso
    cases o with
    | contentBoxes => simp [startGuardRejects, hbusy] at hg
    | aiReplace => simp [startGuardRejects, hbusy] at hg

/-- Witness for C6 at the machine state reached by starting one toggle
operation from mount. -/
theorem busy_flag_serializes_operations_witness :
    demoM1.inFlight.length ≤ 1 :=
  (busy_flag_serializes_operations demoM1
    (Relation.ReflTransGen.single
      ⟨Act.invoke Op.contentBoxes,
       MStep.invokeStarted initMachine Op.contentBoxes rfl⟩)).1
